import Mathlib

/-!
Verification development for the surface-streams core: a shallow embedding of
the TUIO session registry (`tuio/tuio_receiver.py`, `tuio/tuio_elements.py`)
and of the pattern-tracking scheduler (`opencv/pattern_tracking.py`),
together with theorems settling the specified properties.

Modelling conventions:
* Python floats (timestamps, coordinates) are embedded as `ℚ`;
  integer ids as `ℤ`; dictionary keys as the `String` keys the code computes.
* Python `dict`s are embedded as association lists with unique keys by
  construction: `aset` removes every binding of the key and appends the new
  one.  No modelled operation observes dict insertion order.
* Fallible code (a raised exception) is embedded as `Except String`.
-/

namespace SurfaceStreams

/-! ## Association-list maps (embedding of Python `dict`) -/

/-- Lookup in an association list (first binding of the key). -/
def alookup (l : List (String × α)) (k : String) : Option α :=
  (l.find? (fun p => p.1 = k)).map (·.2)

/-- `d[k] = v`: remove every binding of `k`, append the new binding. -/
def aset (l : List (String × α)) (k : String) (v : α) : List (String × α) :=
  l.filter (fun p => p.1 ≠ k) ++ [(k, v)]

/-- Key list of an association list. -/
def akeys (l : List (String × α)) : List String := l.map (·.1)

/-! ## TuioData and the data-list operations (`tuio/tuio_elements.py`)

`TuioData.__eq__` compares only `mime_type`, so Python's `in` / `list.remove`
on a data list act on the first element with a matching mime type. -/

/-- `TuioData`: a mime type tag and a payload. -/
structure TuioData where
  mime_type : String
  data : String
  deriving DecidableEq, Repr

/-- Python `TuioData.__eq__`: true iff the mime types agree. -/
def TuioData.pyEq (a b : TuioData) : Bool := a.mime_type = b.mime_type

/-- `TuioElement.append_data(data, remove_similar)`: optionally drop the first
entry with the same mime type (`list.remove` after an `in` check), then
append.  `List.eraseP` is the identity when no entry matches, exactly as the
guarded `remove`. -/
def append_data (l : List TuioData) (d : TuioData) (remove_similar : Bool) :
    List TuioData :=
  (if remove_similar then l.eraseP (fun x => TuioData.pyEq x d) else l) ++ [d]

/-- `TuioElement.append_data_list(data, remove_similar)`: for each incoming
item drop the first stored entry with the same mime type, then extend with the
whole incoming list. -/
def append_data_list (l : List TuioData) (ds : List TuioData)
    (remove_similar : Bool) : List TuioData :=
  (if remove_similar then
    ds.foldl (fun acc d => acc.eraseP (fun x => TuioData.pyEq x d)) l
  else l) ++ ds

/-- `TuioElement.get_value_by_mime_type`: payload of the first entry with the
given mime type. -/
def get_value_by_mime_type (l : List TuioData) (m : String) : Option String :=
  (l.find? (fun d => d.mime_type = m)).map (·.data)

/-- The spec's invariant: at most one entry per mime type. -/
def atMostOnePerMime (l : List TuioData) : Prop :=
  l.Pairwise (fun a b => a.mime_type ≠ b.mime_type)

instance : DecidablePred atMostOnePerMime := fun l =>
  inferInstanceAs (Decidable (l.Pairwise _))

/-! ## Bounds, symbols, pointers, image patterns -/

/-- `TuioBounds`: a rotated bounding box. -/
structure TuioBounds where
  x_pos : ℚ := 0
  y_pos : ℚ := 0
  angle : ℚ := 0
  width : ℚ := 0
  height : ℚ := 0
  deriving DecidableEq, Repr

/-- `TuioBounds.is_empty`. -/
def TuioBounds.is_empty (b : TuioBounds) : Bool := b.width ≤ 0 ∨ b.height ≤ 0

/-- `TuioSymbol`: uuid (nullable), type id, component id. -/
structure TuioSymbol where
  uuid : Option String := none
  tu_id : ℤ := -1
  c_id : ℤ := -1
  deriving DecidableEq, Repr

/-- `TuioSymbol.is_empty`. -/
def TuioSymbol.is_empty (s : TuioSymbol) : Bool := s.uuid = none

/-- `TuioPointer`: pose fields plus the inherited `TuioElement` data list. -/
structure TuioPointer where
  s_id : ℤ := -1
  u_id : ℤ := -1
  tu_id : ℤ := -1
  c_id : ℤ := -1
  x_pos : ℚ := 0
  y_pos : ℚ := 0
  angle : ℚ := 0
  shear : ℚ := 0
  radius : ℚ := 10
  press : Bool := false
  data : List TuioData := []
  deriving DecidableEq, Repr

/-- `TuioPointer.calc_key`: `"<s_id>_<u_id>_<c_id>"`. -/
def TuioPointer.calc_key (s_id u_id c_id : ℤ) : String :=
  toString s_id ++ "_" ++ toString u_id ++ "_" ++ toString c_id

/-- `TuioPointer.key`. -/
def TuioPointer.key (p : TuioPointer) : String :=
  TuioPointer.calc_key p.s_id p.u_id p.c_id

/-- `TuioImagePattern`: bounds and symbol, keyed by session id and user id
(the inherited data list is carried for completeness). -/
structure TuioImagePattern where
  s_id : ℤ := -1
  u_id : ℤ := -1
  bnd : TuioBounds := {}
  sym : TuioSymbol := {}
  data : List TuioData := []
  deriving DecidableEq, Repr

/-- `TuioImagePattern.calc_key`: `"<s_id>_<u_id>"`. -/
def TuioImagePattern.calc_key (s_id u_id : ℤ) : String :=
  toString s_id ++ "_" ++ toString u_id

/-- `TuioImagePattern.key`. -/
def TuioImagePattern.key (p : TuioImagePattern) : String :=
  TuioImagePattern.calc_key p.s_id p.u_id

/-- `TuioImagePattern.is_valid`. -/
def TuioImagePattern.is_valid (p : TuioImagePattern) : Bool :=
  ¬ p.bnd.is_empty ∧ ¬ p.sym.is_empty

/-- `TuioImagePattern.set_height(height)`: the source assigns the argument to
`self._bnd.width` (tuio_elements.py line 584). -/
def TuioImagePattern.set_height (p : TuioImagePattern) (height : ℚ) :
    TuioImagePattern :=
  { p with bnd := { p.bnd with width := height } }

/-- `TuioImagePattern.set_width(width)`. -/
def TuioImagePattern.set_width (p : TuioImagePattern) (width : ℚ) :
    TuioImagePattern :=
  { p with bnd := { p.bnd with width := width } }

/-! ## TuioSessionId (`tuio/tuio_elements.py` lines 5-49)

The class-level static state `_current` / `_existing` is made explicit. -/

/-- The static state of `TuioSessionId`. -/
structure SessionState where
  current : ℤ := 0
  existing : List ℤ := []
  deriving DecidableEq, Repr

/-- `TuioSessionId.get(keep_current=True)`: return `_current`, change nothing. -/
def sidGetKeep (st : SessionState) : ℤ × SessionState := (st.current, st)

/-- `TuioSessionId.get()` (default `keep_current=False`): take `_current`,
bump the counter, retry recursively while the candidate is blacklisted, then
append the result to `_existing` (the source appends once per recursion
level, duplicating entries; membership is what matters). -/
def sidGet (st : SessionState) : ℤ × SessionState :=
  if h : st.current ∈ st.existing then
    let r := sidGet { st with current := st.current + 1 }
    (r.1, { r.2 with existing := r.2.existing ++ [r.1] })
  else
    (st.current, { current := st.current + 1, existing := st.existing ++ [st.current] })
termination_by st.existing.countP (fun x => decide (st.current ≤ x))
decreasing_by
  simp_wf
  have key : ∀ (c : ℤ) (ex : List ℤ), c ∈ ex →
      ex.countP (fun x => decide (c + 1 ≤ x)) < ex.countP (fun x => decide (c ≤ x)) := by
    intro c ex hc
    induction ex with
    | nil => simp at hc
    | cons a t ih =>
      rw [List.countP_cons, List.countP_cons]
      have hmono : t.countP (fun x => decide (c + 1 ≤ x)) ≤
          t.countP (fun x => decide (c ≤ x)) := by
        apply List.countP_mono_left
        intro x _ hx
        simp only [decide_eq_true_eq] at hx ⊢
        omega
      rcases List.mem_cons.mp hc with heq | ht
      · have h1 : (decide (c + 1 ≤ a)) = false := by
          simp only [decide_eq_false_iff_not]
          omega
        have h2 : (decide (c ≤ a)) = true := by
          simp only [decide_eq_true_eq]
          omega
        rw [h1, h2]
        simp
        omega
      · have hle : (if (decide (c + 1 ≤ a)) = true then 1 else 0) ≤
            (if (decide (c ≤ a)) = true then 1 else 0) := by
          by_cases hca : c + 1 ≤ a
          · have hca2 : c ≤ a := by omega
            simp [hca, hca2]
          · simp [hca]
        have := ih ht
        omega
  exact key st.current st.existing h

/-- `TuioSessionId.add_existing(s_id)`. -/
def add_existing (st : SessionState) (s_id : ℤ) : SessionState :=
  if s_id ∈ st.existing then st else { st with existing := st.existing ++ [s_id] }

/-- `K` successive default `get()` calls; returns the produced ids in order. -/
def sidRun : SessionState → ℕ → List ℤ × SessionState
  | st, 0 => ([], st)
  | st, k + 1 =>
    let r := sidGet st
    let rest := sidRun r.2 k
    (r.1 :: rest.1, rest.2)

/-! ## The session registry (`tuio/tuio_receiver.py`) -/

/-- Messages enqueued by `bnd_handler`. -/
structure BndMsg where
  s_id : ℤ
  u_id : ℤ
  bnd : TuioBounds
  deriving DecidableEq, Repr

/-- Messages enqueued by `sym_handler`. -/
structure SymMsg where
  s_id : ℤ
  u_id : ℤ
  sym : TuioSymbol
  deriving DecidableEq, Repr

/-- Messages enqueued by `ptr_handler` (the handler stores `s_id`, `u_id`,
`c_id` alongside the constructed pointer). -/
structure PtrMsg where
  s_id : ℤ
  u_id : ℤ
  c_id : ℤ
  ptr : TuioPointer
  deriving DecidableEq, Repr

/-- Messages enqueued by `dat_handler`. -/
structure DatMsg where
  s_id : ℤ
  u_id : ℤ
  c_id : ℤ
  dat : TuioData
  deriving DecidableEq, Repr

/-- `bnd_handler`: build a `TuioBounds` and enqueue it. -/
def bnd_handler (s_id u_id : ℤ) (x_pos y_pos angle width height : ℚ)
    (queue : List BndMsg) : List BndMsg :=
  queue ++ [{ s_id := s_id, u_id := u_id,
              bnd := { x_pos := x_pos, y_pos := y_pos, angle := angle,
                       width := width, height := height } }]

/-- Error raised by `sym_handler` on an unrecognised identifier type
(the source raises `ValueError`; the spec files it as a ProtocolError). -/
def symTypeError : String := "FAILURE: sym_type must be uuid"

/-- `sym_handler`: reject any `sym_type` other than `"uuid"`, otherwise build
a `TuioSymbol` and enqueue it. -/
def sym_handler (s_id u_id tu_id c_id : ℤ) (sym_type sym_value : String)
    (queue : List SymMsg) : Except String (List SymMsg) :=
  if sym_type ≠ "uuid" then Except.error symTypeError
  else Except.ok (queue ++
    [{ s_id := s_id, u_id := u_id,
       sym := { uuid := some sym_value, tu_id := tu_id, c_id := c_id } }])

/-- `ptr_handler`: build a `TuioPointer` (fresh, empty data list) and enqueue
it together with its id fields. -/
def ptr_handler (s_id u_id tu_id c_id : ℤ) (x_pos y_pos angle shear radius : ℚ)
    (press : Bool) (queue : List PtrMsg) : List PtrMsg :=
  queue ++ [{ s_id := s_id, u_id := u_id, c_id := c_id,
              ptr := { s_id := s_id, u_id := u_id, tu_id := tu_id, c_id := c_id,
                       x_pos := x_pos, y_pos := y_pos, angle := angle,
                       shear := shear, radius := radius, press := press,
                       data := [] } }]

/-- `dat_handler`: build a `TuioData` and enqueue it with its id fields. -/
def dat_handler (s_id u_id c_id : ℤ) (mime_type data : String)
    (queue : List DatMsg) : List DatMsg :=
  queue ++ [{ s_id := s_id, u_id := u_id, c_id := c_id,
              dat := { mime_type := mime_type, data := data } }]

/-- The change log returned by `update_elements`. -/
structure UpdateLog where
  bnd : List String := []
  sym : List String := []
  ptr : List String := []
  dat : List String := []
  deriving DecidableEq, Repr

/-- The mutable state of a `TuioReceiver`. -/
structure RegistryState where
  patterns : List (String × TuioImagePattern) := []
  pattern_update_times : List (String × ℚ) := []
  pointers : List (String × TuioPointer) := []
  pointer_update_times : List (String × ℚ) := []
  element_timeout : ℚ := 1
  deriving DecidableEq, Repr

/-- Append a key to a change-log category unless it is already listed
(the guard used by the bnd, sym and ptr processors). -/
def dedup_append (l : List String) (k : String) : List String :=
  if k ∈ l then l else l ++ [k]

/-- One iteration of `TuioReceiver._process_bnd_updates`: create the pattern
if its key is new, store the incoming bounds, stamp the update time, and log
the key (deduplicated). -/
def process_bnd_one (st : RegistryState) (log : UpdateLog) (ts : ℚ)
    (m : BndMsg) : RegistryState × UpdateLog :=
  let key := TuioImagePattern.calc_key m.s_id m.u_id
  let p0 := (alookup st.patterns key).getD { s_id := m.s_id, u_id := m.u_id }
  ({ st with patterns := aset st.patterns key { p0 with bnd := m.bnd },
             pattern_update_times := aset st.pattern_update_times key ts },
   { log with bnd := dedup_append log.bnd key })

/-- One iteration of `TuioReceiver._process_sym_updates`: create (and stamp)
the pattern if its key is new; then, only if the stored symbol differs from
the incoming one, store it, stamp the time and log the key (deduplicated). -/
def process_sym_one (st : RegistryState) (log : UpdateLog) (ts : ℚ)
    (m : SymMsg) : RegistryState × UpdateLog :=
  let key := TuioImagePattern.calc_key m.s_id m.u_id
  let created :=
    match alookup st.patterns key with
    | some p => (st, p)
    | none =>
      let fresh : TuioImagePattern := { s_id := m.s_id, u_id := m.u_id }
      ({ st with patterns := aset st.patterns key fresh,
                 pattern_update_times := aset st.pattern_update_times key ts },
       fresh)
  if created.2.sym ≠ m.sym then
    ({ created.1 with
        patterns := aset created.1.patterns key { created.2 with sym := m.sym },
        pattern_update_times := aset created.1.pattern_update_times key ts },
     { log with sym := dedup_append log.sym key })
  else (created.1, log)

/-- One iteration of `TuioReceiver._process_ptr_updates`: store the incoming
pointer under its key, stamp the time, carry the previous pointer's data list
forward via `append_data_list`, and log the key (deduplicated). -/
def process_ptr_one (st : RegistryState) (log : UpdateLog) (ts : ℚ)
    (m : PtrMsg) : RegistryState × UpdateLog :=
  let key := m.ptr.key
  let newPtr :=
    match alookup st.pointers key with
    | some prev => { m.ptr with data := append_data_list m.ptr.data prev.data true }
    | none => m.ptr
  ({ st with pointers := aset st.pointers key newPtr,
             pointer_update_times := aset st.pointer_update_times key ts },
   { log with ptr := dedup_append log.ptr key })

/-- One iteration of `TuioReceiver._process_dat_updates`: only if the key
already names a pointer, attach the data (`append_data` with
`remove_similar=True`), stamp the time, and log the key — the source appends
to the dat log without the deduplication guard used by the other three. -/
def process_dat_one (st : RegistryState) (log : UpdateLog) (ts : ℚ)
    (m : DatMsg) : RegistryState × UpdateLog :=
  let key := TuioPointer.calc_key m.s_id m.u_id m.c_id
  match alookup st.pointers key with
  | some p =>
    ({ st with pointers := aset st.pointers key
                 { p with data := append_data p.data m.dat true },
               pointer_update_times := aset st.pointer_update_times key ts },
     { log with dat := log.dat ++ [key] })
  | none => (st, log)

/-- Drain the bnd queue (FIFO). -/
def process_bnd (st : RegistryState) (log : UpdateLog) (ts : ℚ)
    (q : List BndMsg) : RegistryState × UpdateLog :=
  q.foldl (fun acc m => process_bnd_one acc.1 acc.2 ts m) (st, log)

/-- Drain the sym queue (FIFO). -/
def process_sym (st : RegistryState) (log : UpdateLog) (ts : ℚ)
    (q : List SymMsg) : RegistryState × UpdateLog :=
  q.foldl (fun acc m => process_sym_one acc.1 acc.2 ts m) (st, log)

/-- Drain the ptr queue (FIFO). -/
def process_ptr (st : RegistryState) (log : UpdateLog) (ts : ℚ)
    (q : List PtrMsg) : RegistryState × UpdateLog :=
  q.foldl (fun acc m => process_ptr_one acc.1 acc.2 ts m) (st, log)

/-- Drain the dat queue (FIFO). -/
def process_dat (st : RegistryState) (log : UpdateLog) (ts : ℚ)
    (q : List DatMsg) : RegistryState × UpdateLog :=
  q.foldl (fun acc m => process_dat_one acc.1 acc.2 ts m) (st, log)

/-- Expiry test used by `_remove_expired_elements`: strictly more than
`element_timeout` seconds since the last update.  A key with no stored update
time would raise `KeyError` in the source; that branch is unreachable in any
state produced by the processing functions (they always stamp a time when
storing an element), and is mapped to `true` here. -/
def expiredAt (times : List (String × ℚ)) (timeout ts : ℚ) (k : String) : Bool :=
  match alookup times k with
  | some t => decide (timeout < ts - t)
  | none => true

/-- Keep predicate for a live-element entry. -/
def keepElem (times : List (String × ℚ)) (timeout ts : ℚ) (k : String) : Bool :=
  ! expiredAt times timeout ts k

/-- Keep predicate for an update-time entry: the source deletes a time entry
only for keys it just removed from the corresponding live map. -/
def keepTime (times : List (String × ℚ)) (timeout ts : ℚ)
    (liveKeys : List String) (k : String) : Bool :=
  ! (decide (k ∈ liveKeys) && expiredAt times timeout ts k)

/-- `TuioReceiver._remove_expired_elements`: when `element_timeout > 0`,
drop every pattern and pointer whose last update is strictly older than the
timeout, together with its update-time entry; otherwise do nothing. -/
def remove_expired (st : RegistryState) (ts : ℚ) : RegistryState :=
  if 0 < st.element_timeout then
    { st with
      patterns := st.patterns.filter
        (fun p => keepElem st.pattern_update_times st.element_timeout ts p.1),
      pattern_update_times := st.pattern_update_times.filter
        (fun p => keepTime st.pattern_update_times st.element_timeout ts
          (akeys st.patterns) p.1),
      pointers := st.pointers.filter
        (fun p => keepElem st.pointer_update_times st.element_timeout ts p.1),
      pointer_update_times := st.pointer_update_times.filter
        (fun p => keepTime st.pointer_update_times st.element_timeout ts
          (akeys st.pointers) p.1) }
  else st

/-- `TuioReceiver.update_elements`: drain the four queues in order
(bnd, sym, ptr, dat), then run the eviction sweep; return the new state and
the change log. -/
def update_elements (st : RegistryState) (bndQ : List BndMsg)
    (symQ : List SymMsg) (ptrQ : List PtrMsg) (datQ : List DatMsg)
    (time_now : ℚ) : RegistryState × UpdateLog :=
  let r1 := process_bnd st {} time_now bndQ
  let r2 := process_sym r1.1 r1.2 time_now symQ
  let r3 := process_ptr r2.1 r2.2 time_now ptrQ
  let r4 := process_dat r3.1 r3.2 time_now datQ
  (remove_expired r4.1 time_now, r4.2)

/-- `TuioReceiver.get_patterns()` (empty key list: the whole map). -/
def get_patterns (st : RegistryState) : List (String × TuioImagePattern) :=
  st.patterns

/-- `TuioReceiver.get_pointers()` (empty key list: the whole map). -/
def get_pointers (st : RegistryState) : List (String × TuioPointer) :=
  st.pointers

/-! ## The tracking scheduler (`opencv/pattern_tracking.py`)

The per-pattern matching pipeline (SIFT detection on the frame, knn matching
with ratio test, RANSAC homography, corner transform, min-area rectangle,
aspect-ratio gate, normalisation) is textually identical in `track` and in
`PatternTrackingThread.run`; its feature-extraction and matching primitives
are external capabilities.  It is therefore embedded as one abstract function
`pipeline : SiftConfig → Image → Pattern → Option PatternTrackingResult`,
parameterised by the configuration of the SIFT detector applied to the frame
— the single point where the two variants differ in the source:
`PatternTracking._frame_pattern` detects with `SIFT_create(sigma=2.0)`
(sift_pattern.py line 127, other parameters at OpenCV defaults), while each
`PatternTrackingThread` builds its own frame detector with
`SIFT_create(edgeThreshold=12, contrastThreshold=0.02, sigma=0.8)`
(pattern_tracking.py lines 33-37). -/

/-- Configuration of the SIFT detector applied to the frame. -/
structure SiftConfig where
  edgeThreshold : ℚ
  contrastThreshold : ℚ
  sigma : ℚ
  deriving DecidableEq, Repr

/-- Frame detector of the sequential `PatternTracking.track`
(`SIFT_create(sigma=2.0)`; edge threshold 10 and contrast threshold 0.04 are
the OpenCV defaults). -/
def seqFrameConfig : SiftConfig :=
  { edgeThreshold := 10, contrastThreshold := 1/25, sigma := 2 }

/-- Frame detector built inside each `PatternTrackingThread`. -/
def threadFrameConfig : SiftConfig :=
  { edgeThreshold := 12, contrastThreshold := 1/50, sigma := 4/5 }

/-- `PatternTrackingResult`: a pattern id and its normalised bounds. -/
structure PatternTrackingResult where
  pattern_id : String
  bnd : TuioBounds
  deriving DecidableEq, Repr

/-- `PatternTracking.track`: run the pipeline sequentially over the loaded
patterns, keeping the hits. -/
def track {Image Pattern : Type}
    (pipeline : SiftConfig → Image → Pattern → Option PatternTrackingResult)
    (image : Image) (patterns : List Pattern) : List PatternTrackingResult :=
  patterns.filterMap (pipeline seqFrameConfig image)

/-- `patterns[thread_id].append(temp[i])`. -/
def rrAdd (bs : List (List α)) (j : ℕ) (a : α) : List (List α) :=
  bs.set j (bs.getD j [] ++ [a])

/-- The round-robin fill loop: element `i` goes to bucket `i % N`. -/
def rrFillAux (N : ℕ) : List (List α) → ℕ → List α → List (List α)
  | bs, _, [] => bs
  | bs, i, a :: l => rrFillAux N (rrAdd bs (i % N) a) (i + 1) l

/-- Partition a pattern list round-robin over `N` buckets. -/
def rrFill (N : ℕ) (l : List α) : List (List α) :=
  rrFillAux N (List.replicate N []) 0 l

/-- `PatternTracking.track_concurrent`: partition the patterns round-robin,
start a thread per non-empty bucket (each thread detects frame features with
`threadFrameConfig` and runs the pipeline over its bucket), then join and
extend the result list with every non-empty per-thread result list. -/
def track_concurrent {Image Pattern : Type}
    (pipeline : SiftConfig → Image → Pattern → Option PatternTrackingResult)
    (image : Image) (patterns : List Pattern) (num_threads : ℕ) :
    List PatternTrackingResult :=
  let buckets := rrFill num_threads patterns
  let started := buckets.filter (fun b => ! b.isEmpty)
  let threadResults := started.map (fun b => b.filterMap (pipeline threadFrameConfig image))
  threadResults.foldl (fun res r => if ! r.isEmpty then res ++ r else res) []

/-- The pattern created by the scenario's first poll. -/
def scenePat : TuioImagePattern :=
  { s_id := 5, u_id := 7,
    bnd := { x_pos := 0, y_pos := 0, angle := 0, width := 2, height := 3 } }

/-- The pointer created by the scenario's first poll. -/
def scenePtr : TuioPointer := { s_id := 5, u_id := 7, c_id := 9 }

/-- The registry contents right after the scenario's first poll has processed
its two messages (before that poll's eviction sweep). -/
def sceneRaw : RegistryState :=
  { patterns := [("5_7", scenePat)],
    pattern_update_times := [("5_7", 0)],
    pointers := [("5_7_9", scenePtr)],
    pointer_update_times := [("5_7_9", 0)],
    element_timeout := 1 }

/-- Scenario state for the timeout property: a pattern and a pointer created
by a poll at t=0 with `element_timeout = 1` and never updated again. -/
def sceneA : RegistryState :=
  (update_elements { element_timeout := 1 }
    [{ s_id := 5, u_id := 7, bnd := { width := 2, height := 3 } }] []
    [{ s_id := 5, u_id := 7, c_id := 9, ptr := { s_id := 5, u_id := 7, c_id := 9 } }]
    [] 0).1

/-- The scenario state after an empty poll at t = 1/2. -/
def sceneB : RegistryState := (update_elements sceneA [] [] [] [] (1/2)).1

/-- The scenario state after a further empty poll at t = 3/2. -/
def sceneC : RegistryState := (update_elements sceneB [] [] [] [] (3/2)).1

/-- A stored pointer carrying one piece of extension data. -/
def cPrevPtr : TuioPointer :=
  { s_id := 1, u_id := 2, c_id := 3, data := [{ mime_type := "text", data := "old" }] }

/-- A ptr message hitting the same key with a new pose. -/
def cPtrMsg : PtrMsg :=
  { s_id := 1, u_id := 2, c_id := 3,
    ptr := { s_id := 1, u_id := 2, c_id := 3, x_pos := 4 } }

/-- A registry holding `cPrevPtr` under key `"1_2_3"`. -/
def cPtrState : RegistryState :=
  { pointers := [("1_2_3", cPrevPtr)],
    pointer_update_times := [("1_2_3", 0)],
    element_timeout := 1 }

/-- A dat message whose key `"9_9_9"` names no pointer of `cPtrState`. -/
def cDatMsg : DatMsg :=
  { s_id := 9, u_id := 9, c_id := 9, dat := { mime_type := "m", data := "v" } }

/-- A concrete interpretation of the matching pipeline that reports pattern
`"p0"` exactly when the frame detector is configured with the sequential
variant's edge threshold (10, the OpenCV default) rather than the worker
threads' 12: under it the sequential and concurrent variants disagree. -/
def cexPipeline (cfg : SiftConfig) (_ : Unit) (_ : Unit) :
    Option PatternTrackingResult :=
  if cfg.edgeThreshold = seqFrameConfig.edgeThreshold then
    some { pattern_id := "p0", bnd := { width := 1, height := 1 } }
  else none

/-- A configuration-insensitive pipeline interpretation, used to instantiate
the equivalence theorem. -/
def constPipeline (_ : SiftConfig) (_ : Unit) (_ : Unit) :
    Option PatternTrackingResult :=
  some { pattern_id := "p0", bnd := { width := 1, height := 1 } }

/-! ## Association-list lemmas -/

theorem alookup_nil (k : String) : alookup ([] : List (String × α)) k = none := rfl

theorem alookup_cons (p : String × α) (t : List (String × α)) (k : String) :
    alookup (p :: t) k = if p.1 = k then some p.2 else alookup t k := by
  unfold alookup
  by_cases h : p.1 = k
  · rw [List.find?_cons_of_pos _ (by simp [h])]; simp [h]
  · rw [List.find?_cons_of_neg _ (by simp [h])]; simp [h]

theorem alookup_aset (l : List (String × α)) (k k' : String) (v : α) :
    alookup (aset l k v) k' = if k' = k then some v else alookup l k' := by
  unfold aset
  induction l with
  | nil =>
    by_cases h : k' = k
    · simp [alookup_cons, h]
    · simp [alookup_cons, h, Ne.symm h]
  | cons p t ih =>
    by_cases hp : p.1 = k
    · rw [List.filter_cons_of_neg (by simp [hp])]
      rw [ih]
      by_cases h : k' = k
      · simp [h]
      · have hpk' : ¬ p.1 = k' := fun hc => h (hc ▸ hp ▸ rfl)
        simp [h, alookup_cons, hpk']
    · rw [List.filter_cons_of_pos (by simp [hp])]
      rw [List.cons_append, alookup_cons, alookup_cons, ih]
      by_cases hpk' : p.1 = k'
      · have h : ¬ k' = k := fun hc => hp (hpk'.trans hc)
        simp [hpk', h]
      · simp [hpk']

theorem alookup_filter_key (l : List (String × α)) (pred : String → Bool) (k : String) :
    alookup (l.filter (fun p => pred p.1)) k =
      if pred k then alookup l k else none := by
  induction l with
  | nil => simp [alookup_nil]
  | cons p t ih =>
    by_cases hp : pred p.1
    · rw [List.filter_cons_of_pos (by simpa using hp), alookup_cons, alookup_cons]
      by_cases hpk : p.1 = k
      · subst hpk; simp [hp]
      · simp [hpk, ih]
    · rw [List.filter_cons_of_neg (by simpa using hp), alookup_cons, ih]
      by_cases hpk : p.1 = k
      · subst hpk; simp [hp]
      · simp [hpk]

theorem alookup_isSome_iff (l : List (String × α)) (k : String) :
    (alookup l k).isSome ↔ k ∈ akeys l := by
  unfold akeys
  induction l with
  | nil => simp [alookup_nil]
  | cons p t ih =>
    rw [alookup_cons]
    by_cases hp : p.1 = k
    · simp [hp]
    · have hkp : ¬ k = p.1 := fun hc => hp hc.symm
      simp [hp, hkp, ih]

/-! ## Session-id lemmas -/

theorem sidGet_fst_not_mem (st : SessionState) : (sidGet st).1 ∉ st.existing := by
  induction st using sidGet.induct with
  | case1 st h ih =>
    rw [sidGet]
    simp only [dif_pos h]
    exact ih
  | case2 st h =>
    rw [sidGet]
    simp only [dif_neg h]
    exact h

theorem sidGet_existing_subset (st : SessionState) :
    st.existing ⊆ (sidGet st).2.existing := by
  induction st using sidGet.induct with
  | case1 st h ih =>
    rw [sidGet]
    simp only [dif_pos h]
    intro x hx
    exact List.mem_append_left _ (ih hx)
  | case2 st h =>
    rw [sidGet]
    simp only [dif_neg h]
    intro x hx
    exact List.mem_append_left _ hx

theorem sidGet_fst_mem (st : SessionState) :
    (sidGet st).1 ∈ (sidGet st).2.existing := by
  by_cases h : st.current ∈ st.existing
  · rw [sidGet]
    simp only [dif_pos h]
    exact List.mem_append_right _ (List.mem_singleton.mpr rfl)
  · rw [sidGet]
    simp only [dif_neg h]
    exact List.mem_append_right _ (List.mem_singleton.mpr rfl)

theorem sidRun_length (st : SessionState) (k : ℕ) : (sidRun st k).1.length = k := by
  induction k generalizing st with
  | zero => rfl
  | succ k ih => simp [sidRun, ih]

theorem sidRun_not_mem_existing (st : SessionState) (k : ℕ) :
    ∀ x ∈ (sidRun st k).1, x ∉ st.existing := by
  induction k generalizing st with
  | zero => intro x hx; simp [sidRun] at hx
  | succ k ih =>
    intro x hx
    simp only [sidRun] at hx
    rcases List.mem_cons.mp hx with heq | hx'
    · exact heq ▸ sidGet_fst_not_mem st
    · intro hmem
      exact ih (sidGet st).2 x hx' (sidGet_existing_subset st hmem)

theorem sidRun_nodup (st : SessionState) (k : ℕ) : (sidRun st k).1.Nodup := by
  induction k generalizing st with
  | zero => simp [sidRun]
  | succ k ih =>
    simp only [sidRun]
    refine List.nodup_cons.mpr ⟨?_, ih _⟩
    intro hmem
    exact sidRun_not_mem_existing (sidGet st).2 k _ hmem (sidGet_fst_mem st)

/-! ## Eviction-sweep lemmas -/

theorem alookup_filter_keepElem {α : Type} (times : List (String × ℚ))
    (tmo ts : ℚ) (l : List (String × α)) (k : String) (t : ℚ)
    (h : alookup times k = some t) :
    alookup (l.filter (fun p => keepElem times tmo ts p.1)) k =
      if tmo < ts - t then none else alookup l k := by
  rw [alookup_filter_key l (keepElem times tmo ts) k]
  by_cases hc : tmo < ts - t
  · simp [keepElem, expiredAt, h, hc]
  · simp [keepElem, expiredAt, h, hc]

theorem expiredAt_filter_keepTime (times : List (String × ℚ)) (tmo ts : ℚ)
    (liveKeys : List String) (k : String)
    (h : expiredAt times tmo ts k = false) :
    expiredAt (times.filter (fun q => keepTime times tmo ts liveKeys q.1))
      tmo ts k = false := by
  unfold expiredAt at h ⊢
  cases hl : alookup times k with
  | none => rw [hl] at h; simp at h
  | some t =>
    rw [hl] at h
    have h' : ¬ tmo < ts - t := by simpa using h
    have hk : keepTime times tmo ts liveKeys k = true := by
      simp [keepTime, expiredAt, hl]
      exact Or.inr (by linarith)
    have hlk : alookup (times.filter (fun q => keepTime times tmo ts liveKeys q.1)) k
        = some t := by
      rw [alookup_filter_key]
      simp [hk, hl]
    rw [hlk]
    exact h

theorem alookup_filter_keepTime (times : List (String × ℚ)) (tmo ts : ℚ)
    (liveKeys : List String) (k : String) (t : ℚ)
    (h : alookup times k = some t) (hin : ¬ tmo < ts - t) :
    alookup (times.filter (fun q => keepTime times tmo ts liveKeys q.1)) k
      = some t := by
  have hk : keepTime times tmo ts liveKeys k = true := by
    simp [keepTime, expiredAt, h]
    exact Or.inr (by linarith)
  rw [alookup_filter_key]
  simp [hk, h]

theorem update_elements_nil (st : RegistryState) (ts : ℚ) :
    update_elements st [] [] [] [] ts = (remove_expired st ts, {}) := rfl

theorem keepElem_stable {α : Type} (times : List (String × ℚ)) (tmo ts : ℚ)
    (liveKeys : List String) (l : List (String × α)) :
    ∀ p ∈ l.filter (fun p => keepElem times tmo ts p.1),
      keepElem (times.filter (fun q => keepTime times tmo ts liveKeys q.1))
        tmo ts p.1 = true := by
  intro p hp
  have hk : keepElem times tmo ts p.1 = true := (List.mem_filter.mp hp).2
  have hexp : expiredAt times tmo ts p.1 = false := by
    simpa [keepElem] using hk
  have h2 := expiredAt_filter_keepTime times tmo ts liveKeys p.1 hexp
  simp [keepElem, h2]

theorem keepTime_stable {α : Type} (times : List (String × ℚ)) (tmo ts : ℚ)
    (l : List (String × α)) :
    ∀ q ∈ times.filter (fun q => keepTime times tmo ts (akeys l) q.1),
      keepTime (times.filter (fun q => keepTime times tmo ts (akeys l) q.1))
        tmo ts (akeys (l.filter (fun p => keepElem times tmo ts p.1))) q.1 = true := by
  intro q _
  by_cases hm : q.1 ∈ akeys (l.filter (fun p => keepElem times tmo ts p.1))
  · have hex : ∃ p, p ∈ l.filter (fun p => keepElem times tmo ts p.1) ∧ p.1 = q.1 := by
      unfold akeys at hm
      obtain ⟨p, hp, hpq⟩ := List.mem_map.mp hm
      exact ⟨p, hp, hpq⟩
    obtain ⟨p, hpmem, hpq⟩ := hex
    have hk : keepElem times tmo ts p.1 = true := (List.mem_filter.mp hpmem).2
    have hexp : expiredAt times tmo ts p.1 = false := by
      simpa [keepElem] using hk
    have h2 := expiredAt_filter_keepTime times tmo ts (akeys l) p.1 hexp
    rw [hpq] at h2
    simp only [keepTime] at h2 ⊢
    rw [h2]
    simp
  · simp [keepTime, hm]

theorem remove_expired_patterns (st : RegistryState) (ts : ℚ)
    (hto : 0 < st.element_timeout) :
    (remove_expired st ts).patterns = st.patterns.filter
      (fun p => keepElem st.pattern_update_times st.element_timeout ts p.1) := by
  unfold remove_expired
  rw [if_pos hto]

theorem remove_expired_pattern_times (st : RegistryState) (ts : ℚ)
    (hto : 0 < st.element_timeout) :
    (remove_expired st ts).pattern_update_times = st.pattern_update_times.filter
      (fun p => keepTime st.pattern_update_times st.element_timeout ts
        (akeys st.patterns) p.1) := by
  unfold remove_expired
  rw [if_pos hto]

theorem remove_expired_pointers (st : RegistryState) (ts : ℚ)
    (hto : 0 < st.element_timeout) :
    (remove_expired st ts).pointers = st.pointers.filter
      (fun p => keepElem st.pointer_update_times st.element_timeout ts p.1) := by
  unfold remove_expired
  rw [if_pos hto]

theorem remove_expired_pointer_times (st : RegistryState) (ts : ℚ)
    (hto : 0 < st.element_timeout) :
    (remove_expired st ts).pointer_update_times = st.pointer_update_times.filter
      (fun p => keepTime st.pointer_update_times st.element_timeout ts
        (akeys st.pointers) p.1) := by
  unfold remove_expired
  rw [if_pos hto]

theorem remove_expired_timeout (st : RegistryState) (ts : ℚ) :
    (remove_expired st ts).element_timeout = st.element_timeout := by
  unfold remove_expired
  split <;> rfl

theorem remove_expired_eq_self_of (st : RegistryState) (ts : ℚ)
    (h1 : ∀ p ∈ st.patterns,
      keepElem st.pattern_update_times st.element_timeout ts p.1 = true)
    (h2 : ∀ q ∈ st.pattern_update_times,
      keepTime st.pattern_update_times st.element_timeout ts
        (akeys st.patterns) q.1 = true)
    (h3 : ∀ p ∈ st.pointers,
      keepElem st.pointer_update_times st.element_timeout ts p.1 = true)
    (h4 : ∀ q ∈ st.pointer_update_times,
      keepTime st.pointer_update_times st.element_timeout ts
        (akeys st.pointers) q.1 = true) :
    remove_expired st ts = st := by
  unfold remove_expired
  split
  · rw [List.filter_eq_self.mpr h1, List.filter_eq_self.mpr h2,
        List.filter_eq_self.mpr h3, List.filter_eq_self.mpr h4]
  · rfl

/-! ## Change-log lemmas -/

theorem dedup_append_nodup (l : List String) (k : String) (h : l.Nodup) :
    (dedup_append l k).Nodup := by
  unfold dedup_append
  by_cases hk : k ∈ l
  · rw [if_pos hk]; exact h
  · rw [if_neg hk]
    refine List.Nodup.append h (List.nodup_singleton k) ?_
    intro a ha hb
    rw [List.mem_singleton] at hb
    exact hk (hb ▸ ha)

theorem process_sym_one_log (st : RegistryState) (log : UpdateLog) (ts : ℚ)
    (m : SymMsg) :
    (process_sym_one st log ts m).2.bnd = log.bnd ∧
    (process_sym_one st log ts m).2.ptr = log.ptr ∧
    (process_sym_one st log ts m).2.dat = log.dat ∧
    ((process_sym_one st log ts m).2.sym = log.sym ∨
     (process_sym_one st log ts m).2.sym =
       dedup_append log.sym (TuioImagePattern.calc_key m.s_id m.u_id)) := by
  simp only [process_sym_one]
  split
  · exact ⟨rfl, rfl, rfl, Or.inr rfl⟩
  · exact ⟨rfl, rfl, rfl, Or.inl rfl⟩

theorem process_dat_one_log (st : RegistryState) (log : UpdateLog) (ts : ℚ)
    (m : DatMsg) :
    (process_dat_one st log ts m).2.bnd = log.bnd ∧
    (process_dat_one st log ts m).2.sym = log.sym ∧
    (process_dat_one st log ts m).2.ptr = log.ptr := by
  simp only [process_dat_one]
  split
  · exact ⟨rfl, rfl, rfl⟩
  · exact ⟨rfl, rfl, rfl⟩

theorem process_bnd_log (st : RegistryState) (log : UpdateLog) (ts : ℚ)
    (q : List BndMsg) :
    (process_bnd st log ts q).2.sym = log.sym ∧
    (process_bnd st log ts q).2.ptr = log.ptr ∧
    (process_bnd st log ts q).2.dat = log.dat ∧
    (log.bnd.Nodup → (process_bnd st log ts q).2.bnd.Nodup) := by
  induction q generalizing st log with
  | nil => exact ⟨rfl, rfl, rfl, id⟩
  | cons m q ih =>
    have e : process_bnd st log ts (m :: q) =
        process_bnd (process_bnd_one st log ts m).1
          (process_bnd_one st log ts m).2 ts q := rfl
    rw [e]
    obtain ⟨h1, h2, h3, h4⟩ :=
      ih (process_bnd_one st log ts m).1 (process_bnd_one st log ts m).2
    refine ⟨by rw [h1]; rfl, by rw [h2]; rfl, by rw [h3]; rfl, ?_⟩
    intro hnd
    apply h4
    show (dedup_append log.bnd _).Nodup
    exact dedup_append_nodup _ _ hnd

theorem process_sym_log (st : RegistryState) (log : UpdateLog) (ts : ℚ)
    (q : List SymMsg) :
    (process_sym st log ts q).2.bnd = log.bnd ∧
    (process_sym st log ts q).2.ptr = log.ptr ∧
    (process_sym st log ts q).2.dat = log.dat ∧
    (log.sym.Nodup → (process_sym st log ts q).2.sym.Nodup) := by
  induction q generalizing st log with
  | nil => exact ⟨rfl, rfl, rfl, id⟩
  | cons m q ih =>
    have e : process_sym st log ts (m :: q) =
        process_sym (process_sym_one st log ts m).1
          (process_sym_one st log ts m).2 ts q := rfl
    rw [e]
    obtain ⟨o1, o2, o3, o4⟩ := process_sym_one_log st log ts m
    obtain ⟨h1, h2, h3, h4⟩ :=
      ih (process_sym_one st log ts m).1 (process_sym_one st log ts m).2
    refine ⟨by rw [h1, o1], by rw [h2, o2], by rw [h3, o3], ?_⟩
    intro hnd
    apply h4
    rcases o4 with o4 | o4
    · rw [o4]; exact hnd
    · rw [o4]; exact dedup_append_nodup _ _ hnd

theorem process_ptr_log (st : RegistryState) (log : UpdateLog) (ts : ℚ)
    (q : List PtrMsg) :
    (process_ptr st log ts q).2.bnd = log.bnd ∧
    (process_ptr st log ts q).2.sym = log.sym ∧
    (process_ptr st log ts q).2.dat = log.dat ∧
    (log.ptr.Nodup → (process_ptr st log ts q).2.ptr.Nodup) := by
  induction q generalizing st log with
  | nil => exact ⟨rfl, rfl, rfl, id⟩
  | cons m q ih =>
    have e : process_ptr st log ts (m :: q) =
        process_ptr (process_ptr_one st log ts m).1
          (process_ptr_one st log ts m).2 ts q := rfl
    rw [e]
    obtain ⟨h1, h2, h3, h4⟩ :=
      ih (process_ptr_one st log ts m).1 (process_ptr_one st log ts m).2
    refine ⟨by rw [h1]; rfl, by rw [h2]; rfl, by rw [h3]; rfl, ?_⟩
    intro hnd
    apply h4
    show (dedup_append log.ptr _).Nodup
    exact dedup_append_nodup _ _ hnd

theorem process_dat_log (st : RegistryState) (log : UpdateLog) (ts : ℚ)
    (q : List DatMsg) :
    (process_dat st log ts q).2.bnd = log.bnd ∧
    (process_dat st log ts q).2.sym = log.sym ∧
    (process_dat st log ts q).2.ptr = log.ptr := by
  induction q generalizing st log with
  | nil => exact ⟨rfl, rfl, rfl⟩
  | cons m q ih =>
    have e : process_dat st log ts (m :: q) =
        process_dat (process_dat_one st log ts m).1
          (process_dat_one st log ts m).2 ts q := rfl
    rw [e]
    obtain ⟨o1, o2, o3⟩ := process_dat_one_log st log ts m
    obtain ⟨h1, h2, h3⟩ :=
      ih (process_dat_one st log ts m).1 (process_dat_one st log ts m).2
    exact ⟨by rw [h1, o1], by rw [h2, o2], by rw [h3, o3]⟩

/-! ## Data-list lemmas -/

theorem find?_append_of_false {α : Type} (p : α → Bool) (l₁ l₂ : List α)
    (h : ∀ x ∈ l₁, p x = false) :
    (l₁ ++ l₂).find? p = l₂.find? p := by
  induction l₁ with
  | nil => rfl
  | cons a t ih =>
    rw [List.cons_append, List.find?_cons_of_neg _ (by simp [h a (List.mem_cons_self a t)])]
    exact ih (fun x hx => h x (List.mem_cons_of_mem a hx))

theorem eraseP_mime_of_unique (d : TuioData) (l : List TuioData)
    (h : atMostOnePerMime l) :
    ∀ x ∈ l.eraseP (fun y => TuioData.pyEq y d), x.mime_type ≠ d.mime_type := by
  induction l with
  | nil => intro x hx; simp at hx
  | cons a t ih =>
    obtain ⟨ha, ht⟩ := List.pairwise_cons.mp h
    rw [List.eraseP_cons]
    by_cases hp : TuioData.pyEq a d = true
    · simp only [hp, cond_true]
      intro x hx
      have heq : a.mime_type = d.mime_type := by
        simpa [TuioData.pyEq] using hp
      rw [← heq]
      exact fun hc => ha x hx hc.symm
    · have hp' : TuioData.pyEq a d = false := by
        simpa using hp
      simp only [hp', cond_false]
      intro x hx
      rcases List.mem_cons.mp hx with heq | hxt
      · subst heq
        simpa [TuioData.pyEq] using hp'
      · exact ih ht x hxt

theorem foldl_eraseP_sublist (ds : List TuioData) :
    ∀ l : List TuioData,
      (ds.foldl (fun acc d => acc.eraseP (fun x => TuioData.pyEq x d)) l).Sublist l := by
  induction ds with
  | nil => intro l; exact List.Sublist.refl l
  | cons d ds ih =>
    intro l
    exact (ih (l.eraseP (fun x => TuioData.pyEq x d))).trans (List.eraseP_sublist l)

theorem foldl_eraseP_unique (ds : List TuioData) :
    ∀ l : List TuioData, atMostOnePerMime l →
      atMostOnePerMime
        (ds.foldl (fun acc d => acc.eraseP (fun x => TuioData.pyEq x d)) l) ∧
      ∀ d ∈ ds,
        ∀ x ∈ ds.foldl (fun acc d => acc.eraseP (fun x => TuioData.pyEq x d)) l,
          x.mime_type ≠ d.mime_type := by
  induction ds with
  | nil =>
    intro l h
    exact ⟨h, by intro d hd; simp at hd⟩
  | cons d ds ih =>
    intro l h
    have h' : atMostOnePerMime (l.eraseP (fun x => TuioData.pyEq x d)) :=
      List.Pairwise.sublist (List.eraseP_sublist l) h
    obtain ⟨ih1, ih2⟩ := ih (l.eraseP (fun x => TuioData.pyEq x d)) h'
    refine ⟨ih1, ?_⟩
    intro d' hd' x hx
    rcases List.mem_cons.mp hd' with heq | hd's
    · subst heq
      have hsub := foldl_eraseP_sublist ds (l.eraseP (fun x => TuioData.pyEq x d'))
      exact eraseP_mime_of_unique d' l h x (hsub.subset hx)
    · exact ih2 d' hd's x hx

theorem find?_mime_self (ds : List TuioData)
    (hds : ds.Pairwise (fun a b => a.mime_type ≠ b.mime_type))
    (d : TuioData) (hd : d ∈ ds) :
    ds.find? (fun x => x.mime_type = d.mime_type) = some d := by
  induction ds with
  | nil => simp at hd
  | cons a t ih =>
    obtain ⟨ha, ht⟩ := List.pairwise_cons.mp hds
    rcases List.mem_cons.mp hd with heq | hdt
    · subst heq
      rw [List.find?_cons_of_pos _ (by simp)]
    · rw [List.find?_cons_of_neg _ (by simp [ha d hdt])]
      exact ih ht hdt

/-! ## Round-robin scheduler lemmas -/

theorem rrAdd_length {α : Type} (bs : List (List α)) (j : ℕ) (a : α) :
    (rrAdd bs j a).length = bs.length := by
  unfold rrAdd
  exact List.length_set bs j _

theorem join_rrAdd_perm {α : Type} (bs : List (List α)) (j : ℕ) (a : α)
    (h : j < bs.length) :
    (rrAdd bs j a).flatten.Perm (bs.flatten ++ [a]) := by
  induction bs generalizing j with
  | nil => simp at h
  | cons b t ih =>
    cases j with
    | zero =>
      show ((b ++ [a]) :: t).flatten.Perm ((b :: t).flatten ++ [a])
      rw [List.flatten_cons, List.flatten_cons, List.append_assoc, List.append_assoc]
      exact List.Perm.append_left b (List.perm_append_comm)
    | succ j =>
      have hj : j < t.length := Nat.lt_of_succ_lt_succ h
      show (b :: rrAdd t j a).flatten.Perm ((b :: t).flatten ++ [a])
      rw [List.flatten_cons, List.flatten_cons, List.append_assoc]
      exact List.Perm.append_left b (ih j hj)

theorem rrFillAux_join_perm {α : Type} (N : ℕ) (hN : 0 < N) (l : List α) :
    ∀ (bs : List (List α)) (i : ℕ), bs.length = N →
      (rrFillAux N bs i l).flatten.Perm (bs.flatten ++ l) := by
  induction l with
  | nil =>
    intro bs i _
    rw [List.append_nil]
    exact List.Perm.refl _
  | cons a l ih =>
    intro bs i hlen
    have hmod : i % N < bs.length := by
      rw [hlen]
      exact Nat.mod_lt i hN
    have h1 := ih (rrAdd bs (i % N) a) (i + 1) (by rw [rrAdd_length, hlen])
    have h2 := (join_rrAdd_perm bs (i % N) a hmod).append_right l
    show (rrFillAux N (rrAdd bs (i % N) a) (i + 1) l).flatten.Perm (bs.flatten ++ a :: l)
    have h3 : (bs.flatten ++ [a]) ++ l = bs.flatten ++ a :: l := by
      rw [List.append_assoc]
      rfl
    exact h1.trans (h3 ▸ h2)

theorem rrFill_join_perm {α : Type} (N : ℕ) (hN : 0 < N) (l : List α) :
    (rrFill N l).flatten.Perm l := by
  have h := rrFillAux_join_perm N hN l (List.replicate N []) 0
    (List.length_replicate N [])
  have hj : (List.replicate N ([] : List α)).flatten = [] := by
    induction N with
    | zero => rfl
    | succ n ihn => simpa using ihn
  rw [hj, List.nil_append] at h
  exact h

theorem foldl_extend {α : Type} (L : List (List α)) :
    ∀ acc : List α,
      L.foldl (fun res r => if ! r.isEmpty then res ++ r else res) acc
        = acc ++ L.flatten := by
  induction L with
  | nil => intro acc; simp
  | cons r L ih =>
    intro acc
    rw [List.foldl_cons, List.flatten_cons]
    by_cases hr : r.isEmpty
    · have hr' : r = [] := List.isEmpty_iff.mp hr
      subst hr'
      simpa using ih acc
    · have hc : (! r.isEmpty) = true := by simp [hr]
      rw [if_pos hc, ih, List.append_assoc]

theorem join_filter_not_isEmpty {α : Type} (L : List (List α)) :
    (L.filter (fun b => ! b.isEmpty)).flatten = L.flatten := by
  induction L with
  | nil => rfl
  | cons r L ih =>
    by_cases hr : r.isEmpty
    · have hr' : r = [] := List.isEmpty_iff.mp hr
      subst hr'
      rw [List.filter_cons_of_neg (by simp)]
      simpa using ih
    · rw [List.filter_cons_of_pos (by simp [hr]), List.flatten_cons, List.flatten_cons, ih]

theorem map_filterMap_join {α β : Type} (f : α → Option β) (L : List (List α)) :
    (L.map (fun b => b.filterMap f)).flatten = L.flatten.filterMap f := by
  induction L with
  | nil => rfl
  | cons r L ih =>
    rw [List.map_cons, List.flatten_cons, List.flatten_cons, List.filterMap_append, ih]

theorem filterMap_congr_mem {α β : Type} (f g : α → Option β) (l : List α)
    (h : ∀ a ∈ l, f a = g a) : l.filterMap f = l.filterMap g := by
  induction l with
  | nil => rfl
  | cons a t ih =>
    rw [List.filterMap_cons, List.filterMap_cons,
        h a (List.mem_cons_self a t),
        ih (fun x hx => h x (List.mem_cons_of_mem a hx))]

/-! ## Claims -/

/-- Claim C4: the default `TuioSessionId.get()` call never returns an id that
is in the `existing` blacklist at the time of the call — the quantification
over all `SessionState`s covers blacklists extended externally via
`add_existing` — and `K` successive default calls return `K` pairwise
distinct ids. -/
theorem C4_session_id_fresh_and_distinct :
    (∀ st : SessionState, (sidGet st).1 ∉ st.existing) ∧
    (∀ (st : SessionState) (K : ℕ),
      (sidRun st K).1.length = K ∧ (sidRun st K).1.Nodup) :=
  ⟨sidGet_fst_not_mem, fun st K => ⟨sidRun_length st K, sidRun_nodup st K⟩⟩

/-- Claim C1: with `element_timeout > 0`, the eviction sweep at the end of a
poll removes every pattern and pointer whose last-update stamp is strictly
older than the timeout and keeps every one updated within it; a timeout ≤ 0
disables eviction; and in the spec's scenario (timeout 1, entity created at
t=0), the entity is still returned by `get_patterns`/`get_pointers` after a
poll at t=1/2 and absent after a poll at t=3/2. -/
theorem C1_eviction_timeout :
    (∀ (st : RegistryState) (ts : ℚ) (k : String) (t : ℚ),
        0 < st.element_timeout →
        alookup st.pattern_update_times k = some t →
        (st.element_timeout < ts - t →
            alookup (remove_expired st ts).patterns k = none) ∧
        (ts - t ≤ st.element_timeout →
            alookup (remove_expired st ts).patterns k = alookup st.patterns k)) ∧
    (∀ (st : RegistryState) (ts : ℚ) (k : String) (t : ℚ),
        0 < st.element_timeout →
        alookup st.pointer_update_times k = some t →
        (st.element_timeout < ts - t →
            alookup (remove_expired st ts).pointers k = none) ∧
        (ts - t ≤ st.element_timeout →
            alookup (remove_expired st ts).pointers k = alookup st.pointers k)) ∧
    (∀ (st : RegistryState) (ts : ℚ), st.element_timeout ≤ 0 →
        remove_expired st ts = st) ∧
    ((alookup (get_patterns sceneB) "5_7").isSome = true ∧
     (alookup (get_pointers sceneB) "5_7_9").isSome = true ∧
     alookup (get_patterns sceneC) "5_7" = none ∧
     alookup (get_pointers sceneC) "5_7_9" = none) := by
  refine ⟨?_, ?_, ?_, ?_⟩
  · intro st ts k t hto hlk
    constructor
    · intro hexp
      rw [remove_expired_patterns st ts hto,
          alookup_filter_keepElem st.pattern_update_times st.element_timeout ts
            st.patterns k t hlk, if_pos hexp]
    · intro hin
      rw [remove_expired_patterns st ts hto,
          alookup_filter_keepElem st.pattern_update_times st.element_timeout ts
            st.patterns k t hlk, if_neg (by linarith)]
  · intro st ts k t hto hlk
    constructor
    · intro hexp
      rw [remove_expired_pointers st ts hto,
          alookup_filter_keepElem st.pointer_update_times st.element_timeout ts
            st.pointers k t hlk, if_pos hexp]
    · intro hin
      rw [remove_expired_pointers st ts hto,
          alookup_filter_keepElem st.pointer_update_times st.element_timeout ts
            st.pointers k t hlk, if_neg (by linarith)]
  · intro st ts h
    unfold remove_expired
    rw [if_neg (not_lt.mpr h)]
  · have hA : sceneA = remove_expired sceneRaw 0 := rfl
    have hB : sceneB = remove_expired sceneA (1/2) := rfl
    have hC : sceneC = remove_expired sceneB (3/2) := rfl
    have hto0 : (0 : ℚ) < sceneRaw.element_timeout := by
      show (0 : ℚ) < 1
      norm_num
    have L0 : alookup sceneRaw.pattern_update_times "5_7" = some 0 := by decide
    have LP0 : alookup sceneRaw.patterns "5_7" = some scenePat := by decide
    have M0 : alookup sceneRaw.pointer_update_times "5_7_9" = some 0 := by decide
    have MP0 : alookup sceneRaw.pointers "5_7_9" = some scenePtr := by decide
    have A_pat : alookup sceneA.patterns "5_7" = some scenePat := by
      rw [hA, remove_expired_patterns sceneRaw 0 hto0,
          alookup_filter_keepElem sceneRaw.pattern_update_times
            sceneRaw.element_timeout 0 sceneRaw.patterns "5_7" 0 L0,
          if_neg (show ¬ sceneRaw.element_timeout < 0 - 0 by
            show ¬ (1 : ℚ) < 0 - 0
            norm_num)]
      exact LP0
    have A_time : alookup sceneA.pattern_update_times "5_7" = some 0 := by
      rw [hA, remove_expired_pattern_times sceneRaw 0 hto0]
      exact alookup_filter_keepTime _ _ _ _ _ 0 L0
        (show ¬ sceneRaw.element_timeout < 0 - 0 by
          show ¬ (1 : ℚ) < 0 - 0
          norm_num)
    have A_ptr : alookup sceneA.pointers "5_7_9" = some scenePtr := by
      rw [hA, remove_expired_pointers sceneRaw 0 hto0,
          alookup_filter_keepElem sceneRaw.pointer_update_times
            sceneRaw.element_timeout 0 sceneRaw.pointers "5_7_9" 0 M0,
          if_neg (show ¬ sceneRaw.element_timeout < 0 - 0 by
            show ¬ (1 : ℚ) < 0 - 0
            norm_num)]
      exact MP0
    have A_ptime : alookup sceneA.pointer_update_times "5_7_9" = some 0 := by
      rw [hA, remove_expired_pointer_times sceneRaw 0 hto0]
      exact alookup_filter_keepTime _ _ _ _ _ 0 M0
        (show ¬ sceneRaw.element_timeout < 0 - 0 by
          show ¬ (1 : ℚ) < 0 - 0
          norm_num)
    have htoA : (0 : ℚ) < sceneA.element_timeout := by
      rw [hA, remove_expired_timeout]
      exact hto0
    have B_pat : alookup sceneB.patterns "5_7" = some scenePat := by
      rw [hB, remove_expired_patterns sceneA (1/2) htoA,
          alookup_filter_keepElem sceneA.pattern_update_times
            sceneA.element_timeout (1/2) sceneA.patterns "5_7" 0 A_time,
          if_neg (show ¬ sceneA.element_timeout < 1/2 - 0 by
            show ¬ (1 : ℚ) < 1/2 - 0
            norm_num)]
      exact A_pat
    have B_time : alookup sceneB.pattern_update_times "5_7" = some 0 := by
      rw [hB, remove_expired_pattern_times sceneA (1/2) htoA]
      exact alookup_filter_keepTime _ _ _ _ _ 0 A_time
        (show ¬ sceneA.element_timeout < 1/2 - 0 by
          show ¬ (1 : ℚ) < 1/2 - 0
          norm_num)
    have B_ptr : alookup sceneB.pointers "5_7_9" = some scenePtr := by
      rw [hB, remove_expired_pointers sceneA (1/2) htoA,
          alookup_filter_keepElem sceneA.pointer_update_times
            sceneA.element_timeout (1/2) sceneA.pointers "5_7_9" 0 A_ptime,
          if_neg (show ¬ sceneA.element_timeout < 1/2 - 0 by
            show ¬ (1 : ℚ) < 1/2 - 0
            norm_num)]
      exact A_ptr
    have B_ptime : alookup sceneB.pointer_update_times "5_7_9" = some 0 := by
      rw [hB, remove_expired_pointer_times sceneA (1/2) htoA]
      exact alookup_filter_keepTime _ _ _ _ _ 0 A_ptime
        (show ¬ sceneA.element_timeout < 1/2 - 0 by
          show ¬ (1 : ℚ) < 1/2 - 0
          norm_num)
    have htoB : (0 : ℚ) < sceneB.element_timeout := by
      rw [hB, remove_expired_timeout]
      exact htoA
    have C_pat : alookup sceneC.patterns "5_7" = none := by
      rw [hC, remove_expired_patterns sceneB (3/2) htoB,
          alookup_filter_keepElem sceneB.pattern_update_times
            sceneB.element_timeout (3/2) sceneB.patterns "5_7" 0 B_time,
          if_pos (show sceneB.element_timeout < 3/2 - 0 by
            show (1 : ℚ) < 3/2 - 0
            norm_num)]
    have C_ptr : alookup sceneC.pointers "5_7_9" = none := by
      rw [hC, remove_expired_pointers sceneB (3/2) htoB,
          alookup_filter_keepElem sceneB.pointer_update_times
            sceneB.element_timeout (3/2) sceneB.pointers "5_7_9" 0 B_ptime,
          if_pos (show sceneB.element_timeout < 3/2 - 0 by
            show (1 : ℚ) < 3/2 - 0
            norm_num)]
    refine ⟨?_, ?_, C_pat, C_ptr⟩
    · rw [show get_patterns sceneB = sceneB.patterns from rfl, B_pat]
      rfl
    · rw [show get_pointers sceneB = sceneB.pointers from rfl, B_ptr]
      rfl

/-- Witness for C1 at a concrete expired entity: timeout 1, entity stamped at
t=0, sweep at t=3/2 removes it. -/
theorem C1_eviction_timeout_witness :
    alookup (remove_expired
      { patterns := [("5_7", { s_id := 5, u_id := 7 })],
        pattern_update_times := [("5_7", 0)],
        element_timeout := 1 } (3/2)).patterns "5_7" = none :=
  (C1_eviction_timeout.1
    { patterns := [("5_7", { s_id := 5, u_id := 7 })],
      pattern_update_times := [("5_7", 0)],
      element_timeout := 1 } (3/2) "5_7" 0 (by norm_num) (by decide)).1
    (by norm_num)

/-- Claim C8: the eviction sweep is idempotent — running it twice at the same
timestamp with no intervening updates is the same as running it once, for
every registry state. -/
theorem C8_sweep_idempotent (st : RegistryState) (ts : ℚ) :
    remove_expired (remove_expired st ts) ts = remove_expired st ts := by
  by_cases hto : 0 < st.element_timeout
  · apply remove_expired_eq_self_of
    · rw [remove_expired_patterns st ts hto,
          remove_expired_pattern_times st ts hto, remove_expired_timeout]
      exact keepElem_stable st.pattern_update_times st.element_timeout ts
        (akeys st.patterns) st.patterns
    · rw [remove_expired_pattern_times st ts hto,
          remove_expired_patterns st ts hto, remove_expired_timeout]
      exact keepTime_stable st.pattern_update_times st.element_timeout ts
        st.patterns
    · rw [remove_expired_pointers st ts hto,
          remove_expired_pointer_times st ts hto, remove_expired_timeout]
      exact keepElem_stable st.pointer_update_times st.element_timeout ts
        (akeys st.pointers) st.pointers
    · rw [remove_expired_pointer_times st ts hto,
          remove_expired_pointers st ts hto, remove_expired_timeout]
      exact keepTime_stable st.pointer_update_times st.element_timeout ts
        st.pointers
  · have e : remove_expired st ts = st := by
      unfold remove_expired
      rw [if_neg hto]
    rw [e, e]

/-- Counterexample to claim C2 as stated: the sequential `track` detects the
frame's features with `SIFT_create(sigma=2.0)` while every
`PatternTrackingThread` uses `SIFT_create(edgeThreshold=12,
contrastThreshold=0.02, sigma=0.8)`, so the per-pattern matching runs against
different frame feature sets in the two variants; under an interpretation of
the (external) matching capability that is sensitive to that configuration
difference, the two variants return different pattern-id sets on the same
frame and pattern list, already for N = 1. -/
theorem C2_concurrent_differs_cex :
    "p0" ∈ (track cexPipeline () [()]).map PatternTrackingResult.pattern_id ∧
    "p0" ∉ (track_concurrent cexPipeline () [()] 1).map
      PatternTrackingResult.pattern_id := by
  decide

/-- Claim C2 (amended): whenever the per-pattern matching outcome is the same
under the worker threads' frame-detector configuration as under the
sequential one — the code's single point of divergence — `track_concurrent`
with any `N ≥ 1` worker threads returns a permutation of the sequential
`track` results: the same set of pattern ids with identical poses. -/
theorem C2_track_concurrent_perm {Image Pattern : Type}
    (pipeline : SiftConfig → Image → Pattern → Option PatternTrackingResult)
    (image : Image) (patterns : List Pattern) (N : ℕ) (hN : 1 ≤ N)
    (hcfg : ∀ p ∈ patterns,
      pipeline threadFrameConfig image p = pipeline seqFrameConfig image p) :
    (track_concurrent pipeline image patterns N).Perm
      (track pipeline image patterns) := by
  unfold track_concurrent track
  rw [foldl_extend, List.nil_append, map_filterMap_join, join_filter_not_isEmpty]
  have hperm := rrFill_join_perm N (Nat.lt_of_lt_of_le Nat.zero_lt_one hN) patterns
  have hmem : ∀ p ∈ (rrFill N patterns).flatten,
      pipeline threadFrameConfig image p = pipeline seqFrameConfig image p :=
    fun p hp => hcfg p (hperm.mem_iff.mp hp)
  rw [filterMap_congr_mem _ _ _ hmem]
  exact hperm.filterMap _

/-- Witness for C2 (amended) at a configuration-insensitive pipeline, two
patterns and two worker threads. -/
theorem C2_track_concurrent_perm_witness :
    1 ≤ 2 ∧
    (track_concurrent constPipeline () [(), ()] 2).Perm
      (track constPipeline () [(), ()]) :=
  ⟨by decide,
   C2_track_concurrent_perm constPipeline () [(), ()] 2 (by decide)
     (fun p _ => rfl)⟩

/-- Counterexample to claim C3 as stated: two dat messages for the same
known pointer key in one poll put that key twice into the returned change
log's `"dat"` list — the dat processor lacks the deduplication guard the
other three categories have. -/
theorem C3_dat_log_duplicate_cex :
    ¬ ((update_elements
        { pointers := [("1_2_3", { s_id := 1, u_id := 2, c_id := 3 })],
          pointer_update_times := [("1_2_3", 0)],
          element_timeout := 1 }
        [] [] []
        [{ s_id := 1, u_id := 2, c_id := 3, dat := { mime_type := "m", data := "x" } },
         { s_id := 1, u_id := 2, c_id := 3, dat := { mime_type := "m", data := "y" } }]
        0).2.dat).Nodup := by decide

/-- Claim C3 (amended): within one poll, the `"bnd"`, `"sym"` and `"ptr"`
change lists are duplicate-free for any queued message sequences; the
`"dat"` list may repeat a key. -/
theorem C3_change_log_nodup (st : RegistryState) (ts : ℚ)
    (bndQ : List BndMsg) (symQ : List SymMsg) (ptrQ : List PtrMsg)
    (datQ : List DatMsg) :
    (update_elements st bndQ symQ ptrQ datQ ts).2.bnd.Nodup ∧
    (update_elements st bndQ symQ ptrQ datQ ts).2.sym.Nodup ∧
    (update_elements st bndQ symQ ptrQ datQ ts).2.ptr.Nodup := by
  obtain ⟨b1, b2, b3, b4⟩ := process_bnd_log st {} ts bndQ
  obtain ⟨s1, s2, s3, s4⟩ := process_sym_log (process_bnd st {} ts bndQ).1
    (process_bnd st {} ts bndQ).2 ts symQ
  obtain ⟨p1, p2, p3, p4⟩ := process_ptr_log
    (process_sym (process_bnd st {} ts bndQ).1 (process_bnd st {} ts bndQ).2 ts symQ).1
    (process_sym (process_bnd st {} ts bndQ).1 (process_bnd st {} ts bndQ).2 ts symQ).2
    ts ptrQ
  obtain ⟨d1, d2, d3⟩ := process_dat_log
    (process_ptr (process_sym (process_bnd st {} ts bndQ).1
        (process_bnd st {} ts bndQ).2 ts symQ).1
      (process_sym (process_bnd st {} ts bndQ).1
        (process_bnd st {} ts bndQ).2 ts symQ).2 ts ptrQ).1
    (process_ptr (process_sym (process_bnd st {} ts bndQ).1
        (process_bnd st {} ts bndQ).2 ts symQ).1
      (process_sym (process_bnd st {} ts bndQ).1
        (process_bnd st {} ts bndQ).2 ts symQ).2 ts ptrQ).2
    ts datQ
  refine ⟨?_, ?_, ?_⟩
  · rw [show (update_elements st bndQ symQ ptrQ datQ ts).2.bnd =
        (process_dat _ _ ts datQ).2.bnd from rfl, d1, p1, s1]
    exact b4 List.nodup_nil
  · rw [show (update_elements st bndQ symQ ptrQ datQ ts).2.sym =
        (process_dat _ _ ts datQ).2.sym from rfl, d2, p2]
    apply s4
    rw [b1]
    exact List.nodup_nil
  · rw [show (update_elements st bndQ symQ ptrQ datQ ts).2.ptr =
        (process_dat _ _ ts datQ).2.ptr from rfl, d3]
    apply p4
    rw [s2, b2]
    exact List.nodup_nil

/-- Claim C5: a ptr message for a key that already holds a pointer stores a
new pointer that is the message's pointer (its pose fields) with the previous
pointer's data list carried forward: every `TuioData` attached to the old
pointer is in the new pointer's data list. -/
theorem C5_ptr_pose_update_keeps_data (st : RegistryState) (log : UpdateLog)
    (ts : ℚ) (m : PtrMsg) (prev : TuioPointer)
    (h : alookup st.pointers m.ptr.key = some prev) :
    alookup (process_ptr_one st log ts m).1.pointers m.ptr.key =
      some { m.ptr with data := append_data_list m.ptr.data prev.data true } ∧
    ∀ d ∈ prev.data, d ∈ append_data_list m.ptr.data prev.data true := by
  constructor
  · simp only [process_ptr_one, h]
    rw [alookup_aset, if_pos rfl]
  · intro d hd
    unfold append_data_list
    rw [if_pos rfl]
    exact List.mem_append_right _ hd

/-- Witness for C5: a stored pointer with one data entry survives a pose
update at the same key. -/
theorem C5_ptr_pose_update_keeps_data_witness :
    alookup cPtrState.pointers cPtrMsg.ptr.key = some cPrevPtr ∧
    (alookup (process_ptr_one cPtrState {} 1 cPtrMsg).1.pointers cPtrMsg.ptr.key =
      some { cPtrMsg.ptr with
             data := append_data_list cPtrMsg.ptr.data cPrevPtr.data true } ∧
     ∀ d ∈ cPrevPtr.data, d ∈ append_data_list cPtrMsg.ptr.data cPrevPtr.data true) :=
  ⟨by decide, C5_ptr_pose_update_keeps_data cPtrState {} 1 cPtrMsg cPrevPtr (by decide)⟩

/-- Claim C6: a dat message whose key names no pointer in the registry is
dropped: the step leaves state and log untouched; and across a whole dat
queue, a key absent from the pointer map never enters the `"dat"` change list
and never appears in the pointer map. -/
theorem C6_dat_unknown_pointer_dropped :
    (∀ (st : RegistryState) (log : UpdateLog) (ts : ℚ) (m : DatMsg),
      alookup st.pointers (TuioPointer.calc_key m.s_id m.u_id m.c_id) = none →
      process_dat_one st log ts m = (st, log)) ∧
    (∀ (st : RegistryState) (log : UpdateLog) (ts : ℚ) (datQ : List DatMsg)
        (k : String),
      alookup st.pointers k = none → k ∉ log.dat →
      alookup (process_dat st log ts datQ).1.pointers k = none ∧
      k ∉ (process_dat st log ts datQ).2.dat) := by
  constructor
  · intro st log ts m h
    simp only [process_dat_one, h]
  · intro st log ts datQ k
    induction datQ generalizing st log with
    | nil => exact fun h1 h2 => ⟨h1, h2⟩
    | cons m q ih =>
      intro h1 h2
      have e : process_dat st log ts (m :: q) =
          process_dat (process_dat_one st log ts m).1
            (process_dat_one st log ts m).2 ts q := rfl
      rw [e]
      apply ih
      · cases hl : alookup st.pointers (TuioPointer.calc_key m.s_id m.u_id m.c_id) with
        | none =>
          simp only [process_dat_one, hl]
          exact h1
        | some p =>
          simp only [process_dat_one, hl]
          rw [alookup_aset]
          have hne : ¬ k = TuioPointer.calc_key m.s_id m.u_id m.c_id := by
            intro hc
            rw [hc] at h1
            rw [h1] at hl
            exact Option.noConfusion hl
          rw [if_neg hne]
          exact h1
      · cases hl : alookup st.pointers (TuioPointer.calc_key m.s_id m.u_id m.c_id) with
        | none =>
          simp only [process_dat_one, hl]
          exact h2
        | some p =>
          simp only [process_dat_one, hl]
          intro hmem
          rcases List.mem_append.mp hmem with hmem | hmem
          · exact h2 hmem
          · rw [List.mem_singleton] at hmem
            rw [hmem] at h1
            rw [h1] at hl
            exact Option.noConfusion hl

/-- Witness for C6: a dat message for key `"9_9_9"`, absent from the pointer
map, changes nothing and its key never enters the change log. -/
theorem C6_dat_unknown_pointer_dropped_witness :
    process_dat_one cPtrState {} 0 cDatMsg = (cPtrState, {}) ∧
    (alookup (process_dat cPtrState {} 0 [cDatMsg]).1.pointers "9_9_9" = none ∧
     "9_9_9" ∉ (process_dat cPtrState {} 0 [cDatMsg]).2.dat) :=
  ⟨C6_dat_unknown_pointer_dropped.1 cPtrState {} 0 cDatMsg (by decide),
   C6_dat_unknown_pointer_dropped.2 cPtrState {} 0 [cDatMsg] "9_9_9"
     (by decide) (by decide)⟩

/-- Counterexample to claim C7 as stated: `append_data_list` with
`remove_similar=True` applied to an input list that itself repeats a mime
type leaves two entries of that mime type — the removals all happen before
the whole incoming list is appended. -/
theorem C7_append_data_list_dup_mime_cex :
    ¬ atMostOnePerMime (append_data_list []
      [{ mime_type := "text", data := "a" },
       { mime_type := "text", data := "b" }] true) := by
  decide

/-- Claim C7 (amended): starting from a data list with at most one entry per
mime type, `append_data` (always), and `append_data_list` provided the
appended items have pairwise distinct mime types, restore the invariant with
replacement: afterwards each inserted item's mime type yields that item's
payload. -/
theorem C7_append_unique_mime :
    (∀ (l : List TuioData) (d : TuioData), atMostOnePerMime l →
      atMostOnePerMime (append_data l d true) ∧
      get_value_by_mime_type (append_data l d true) d.mime_type = some d.data) ∧
    (∀ (l ds : List TuioData), atMostOnePerMime l →
      ds.Pairwise (fun a b => a.mime_type ≠ b.mime_type) →
      atMostOnePerMime (append_data_list l ds true) ∧
      ∀ d ∈ ds, get_value_by_mime_type (append_data_list l ds true) d.mime_type
        = some d.data) := by
  constructor
  · intro l d h
    unfold append_data
    rw [if_pos rfl]
    constructor
    · rw [atMostOnePerMime, List.pairwise_append]
      refine ⟨List.Pairwise.sublist (List.eraseP_sublist l) h,
        List.pairwise_singleton _ _, ?_⟩
      intro x hx y hy
      rw [List.mem_singleton] at hy
      rw [hy]
      exact eraseP_mime_of_unique d l h x hx
    · unfold get_value_by_mime_type
      rw [find?_append_of_false _ _ _ (by
        intro x hx
        simpa using eraseP_mime_of_unique d l h x hx)]
      simp
  · intro l ds h hds
    unfold append_data_list
    rw [if_pos rfl]
    obtain ⟨h1, h2⟩ := foldl_eraseP_unique ds l h
    constructor
    · rw [atMostOnePerMime, List.pairwise_append]
      exact ⟨h1, hds, fun x hx y hy => h2 y hy x hx⟩
    · intro d hd
      unfold get_value_by_mime_type
      rw [find?_append_of_false _ _ _ (by
        intro x hx
        simpa using h2 d hd x hx)]
      rw [find?_mime_self ds hds d hd]
      rfl

/-- Witness for C7 at concrete inputs: replacing a same-mime entry via
`append_data`, and appending two distinct-mime entries via
`append_data_list`. -/
theorem C7_append_unique_mime_witness :
    (atMostOnePerMime [({ mime_type := "text", data := "a" } : TuioData)] ∧
     (atMostOnePerMime (append_data [{ mime_type := "text", data := "a" }]
        { mime_type := "text", data := "b" } true) ∧
      get_value_by_mime_type (append_data [{ mime_type := "text", data := "a" }]
        { mime_type := "text", data := "b" } true) "text" = some "b")) ∧
    (atMostOnePerMime (append_data_list [{ mime_type := "text", data := "a" }]
        [{ mime_type := "text", data := "b" }, { mime_type := "rgb", data := "c" }]
        true) ∧
     ∀ d ∈ [({ mime_type := "text", data := "b" } : TuioData),
            { mime_type := "rgb", data := "c" }],
       get_value_by_mime_type (append_data_list [{ mime_type := "text", data := "a" }]
        [{ mime_type := "text", data := "b" }, { mime_type := "rgb", data := "c" }]
        true) d.mime_type = some d.data) :=
  ⟨⟨by decide, C7_append_unique_mime.1 [{ mime_type := "text", data := "a" }]
      { mime_type := "text", data := "b" } (by decide)⟩,
   C7_append_unique_mime.2 [{ mime_type := "text", data := "a" }]
      [{ mime_type := "text", data := "b" }, { mime_type := "rgb", data := "c" }]
      (by decide) (by decide)⟩

/-- Claim C9: a sym message whose identifier-type field is anything other
than `"uuid"` makes `sym_handler` raise (modelled as `Except.error`) instead
of enqueueing a symbol update. -/
theorem C9_sym_handler_error (s_id u_id tu_id c_id : ℤ)
    (sym_type sym_value : String) (queue : List SymMsg)
    (h : sym_type ≠ "uuid") :
    sym_handler s_id u_id tu_id c_id sym_type sym_value queue =
      Except.error symTypeError := by
  simp [sym_handler, h]

/-- Witness for C9 at the spec's scenario input: identifier type `"name"`. -/
theorem C9_sym_handler_error_witness :
    ("name" : String) ≠ "uuid" ∧
    sym_handler 1 2 3 4 "name" "abc" [] = Except.error symTypeError :=
  ⟨by decide, C9_sym_handler_error 1 2 3 4 "name" "abc" [] (by decide)⟩

/-- Claim C10: `TuioImagePattern.set_height(v)` writes `v` into the bounds'
`width` field (not `height`), and every other field — the bounds' `height`,
`x_pos`, `y_pos`, `angle`, and the pattern's ids, symbol and data — is
unchanged. -/
theorem C10_set_height_sets_width (p : TuioImagePattern) (v : ℚ) :
    (p.set_height v).bnd.width = v ∧
    (p.set_height v).bnd.height = p.bnd.height ∧
    (p.set_height v).bnd.x_pos = p.bnd.x_pos ∧
    (p.set_height v).bnd.y_pos = p.bnd.y_pos ∧
    (p.set_height v).bnd.angle = p.bnd.angle ∧
    (p.set_height v).s_id = p.s_id ∧
    (p.set_height v).u_id = p.u_id ∧
    (p.set_height v).sym = p.sym ∧
    (p.set_height v).data = p.data :=
  ⟨rfl, rfl, rfl, rfl, rfl, rfl, rfl, rfl, rfl⟩

end SurfaceStreams
